import Mathlib

/-!
Shallow embedding of `glance/store/filesystem.py` (filesystem-backed image
store) and proofs about its configuration, datadir selection, add/get/delete
operations and error handling.

Conventions of the embedding:
* Python byte strings are `List Nat` (one `Nat` per byte).
* The filesystem visible to the store is an association list
  `List (String × List Nat)` from file path to file contents.
* Exceptions become an explicit `StoreError` sum returned through `Except`.
* External system behaviour (directory existence, `os.makedirs`,
  `os.unlink`, `_get_capacity_info`) is supplied as explicit environment
  functions, since the Python code observes it through OS calls.
-/

namespace Glance

abbrev Bytes := List Nat

/-- The exceptions the module can signal.  Message strings carried by the
Python exceptions are elided; only the exception class (and the `errno` of a
pass-through `IOError`) is observable to the claims.
`UnboundLocalError` models Python's error for reading a local variable that
was never assigned. -/
inductive StoreError where
  | BadStoreConfiguration
  | BadStoreUri
  | NotFound
  | Duplicate
  | StorageFull
  | StorageWriteDenied
  | Forbidden
  | IOError (eno : Nat)
  | UnboundLocalError (name : String)
  | OtherException (tag : String)
  deriving DecidableEq, Repr

instance {ε α : Type} [DecidableEq ε] [DecidableEq α] : DecidableEq (Except ε α) := fun a b =>
  match a, b with
  | .ok x, .ok y =>
    if h : x = y then .isTrue (by rw [h]) else .isFalse (by intro hc; cases hc; exact h rfl)
  | .error x, .error y =>
    if h : x = y then .isTrue (by rw [h]) else .isFalse (by intro hc; cases hc; exact h rfl)
  | .ok _, .error _ => .isFalse (by intro hc; cases hc)
  | .error _, .ok _ => .isFalse (by intro hc; cases hc)

/-! ### Python string primitives used by `configure_add`

Implemented over `String.data` so that they reduce well in the kernel. -/

/-- Whitespace characters removed by Python's `str.strip()`. -/
def isPySpace (c : Char) : Bool :=
  c = ' ' || c = '\t' || c = '\n' || c = '\r' || c = '\x0b' || c = '\x0c'

def dropWhileSpace (l : List Char) : List Char := l.dropWhile isPySpace

/-- Python `str.strip()`: remove leading and trailing whitespace. -/
def pyStrip (s : String) : String :=
  ⟨(dropWhileSpace (dropWhileSpace s.data).reverse).reverse⟩

/-- `l.split(c)` on character lists: split at every occurrence of `c`.
Always returns a non-empty list of pieces, like Python's `str.split(":")`. -/
def splitOnChar (c : Char) : List Char → List (List Char)
  | [] => [[]]
  | x :: xs =>
    match splitOnChar c xs with
    | [] => [[]]
    | h :: t => if x = c then [] :: h :: t else (x :: h) :: t

/-- Python `datadir.split(":")`. -/
def pySplitColon (s : String) : List String :=
  (splitOnChar ':' s.data).map fun l => ⟨l⟩

/-- Python 2 `str.isdigit()`: non-empty and every character an ASCII digit. -/
def pyIsDigit (s : String) : Bool :=
  decide (s.data ≠ []) && s.data.all Char.isDigit

/-- Python `int(...)` on a string of decimal digits. -/
def pyToNat (s : String) : Nat :=
  s.data.foldl (fun a c => a * 10 + (c.toNat - 48)) 0

/-! ### Store state and external environment -/

/-- The attributes `configure_add` installs on the `Store` object.
`priority_data_map` is an association list from priority to the list of
datadir paths appended under that priority (`dict.setdefault(p, []).append`),
and `priority_list` the priorities sorted descending. -/
structure StoreState where
  multiple_datadirs : Bool
  datadir : String
  priority_data_map : List (Nat × List String)
  priority_list : List Nat
  deriving DecidableEq, Repr

/-- Outcomes of the OS calls made by `_create_image_directories`:
whether a directory already exists, whether `os.makedirs` succeeds on it,
and whether the path exists after a failed `makedirs` (the benign race at
lines 136-141 of `filesystem.py`). -/
structure DirEnv where
  dirExists : String → Bool
  makedirsOk : String → Bool
  existsAfterFail : String → Bool

/-- An environment where every directory already exists. -/
def allExistEnv : DirEnv := ⟨fun _ => true, fun _ => true, fun _ => true⟩

/-- `Store._create_image_directories`: for each path, create it when absent;
a creation failure is fatal unless the path turns out to exist after all. -/
def create_image_directories (env : DirEnv) : List String → Except StoreError Unit
  | [] => .ok ()
  | d :: rest =>
    if env.dirExists d then create_image_directories env rest
    else if env.makedirsOk d then create_image_directories env rest
    else if env.existsAfterFail d then create_image_directories env rest
    else .error .BadStoreConfiguration

/-- `dict.setdefault(k, []).append(v)` on an association list. -/
def pdmAppend (k : Nat) (v : String) : List (Nat × List String) → List (Nat × List String)
  | [] => [(k, [v])]
  | (k', vs) :: rest =>
    if k' = k then (k', vs ++ [v]) :: rest else (k', vs) :: pdmAppend k v rest

/-- `self.priority_data_map.get(priority)` (the keys looked up always come
from the map, so the `None` case is represented by `[]`). -/
def pdmGet (pdm : List (Nat × List String)) (p : Nat) : List String :=
  ((pdm.find? fun kv => kv.1 = p).map Prod.snd).getD []

/-- Insert into descending order. -/
def insertDesc (x : Nat) : List Nat → List Nat
  | [] => [x]
  | y :: ys => if y ≤ x then x :: y :: ys else y :: insertDesc x ys

/-- `sorted(dict, reverse=True)`: the keys of the map, descending. -/
def sortDesc (l : List Nat) : List Nat := l.foldr insertDesc []

/-- `set.add` keeping first-insertion order (iteration order of the Python
set is irrelevant to every claim: creation either succeeds on all paths or
raises `BadStoreConfiguration`). -/
def setAdd (s : List String) (x : String) : List String :=
  if x ∈ s then s else s ++ [x]

/-- One iteration of the `for datadir in CONF.filesystem_store_datadir`
loop of `configure_add` (multi-directory branch, lines 173-189).
State carried: `(priority_data_map, directory_paths)`.
When the priority part is present and not `isdigit`, line 184 evaluates the
local variable `reason`, which was only ever assigned inside the
empty-configuration branch that already raised; Python therefore raises
`UnboundLocalError` for `reason` instead of the intended
`BadStoreConfiguration`. -/
def configureTail (acc : List (Nat × List String) × List String)
    (priority : Nat) (datadir_path : String) :
    Except StoreError (List (Nat × List String) × List String) :=
  if datadir_path ≠ "" then
    .ok (pdmAppend priority datadir_path acc.1, setAdd acc.2 datadir_path)
  else
    .ok acc

def configureEntry (acc : List (Nat × List String) × List String) (datadir : String) :
    Except StoreError (List (Nat × List String) × List String) :=
  let parts := (pySplitColon datadir).map pyStrip
  let datadir_path := parts.headD ""
  if parts.length = 2 ∧ parts.getD 1 "" ≠ "" then
    if ¬ pyIsDigit (parts.getD 1 "") then
      .error (.UnboundLocalError "reason")
    else
      configureTail acc (pyToNat (parts.getD 1 "")) datadir_path
  else
    configureTail acc 0 datadir_path

/-- `Store.configure_add` (lines 147-192).  The configured option
`filesystem_store_datadir` is passed as `conf`.  In the single-directory
branch the method never assigns `priority_data_map`, so line 191 reads the
attribute's prior value; the surrounding package initializes it to an empty
map, which is how the repository's own tests exercise the single-directory
path, so the empty map is used here. -/
def configure_add (env : DirEnv) (conf : List String) : Except StoreError StoreState :=
  if conf = [] then
    .error .BadStoreConfiguration
  else if conf.length = 1 then
    let st : StoreState :=
      { multiple_datadirs := false
        datadir := conf.headD ""
        priority_data_map := []
        priority_list := sortDesc (([] : List (Nat × List String)).map Prod.fst) }
    match create_image_directories env [st.datadir] with
    | .error e => .error e
    | .ok _ => .ok st
  else
    match conf.foldlM configureEntry ([], []) with
    | .error e => .error e
    | .ok (pdm, paths) =>
      let st : StoreState :=
        { multiple_datadirs := true
          datadir := ""
          priority_data_map := pdm
          priority_list := sortDesc (pdm.map Prod.fst) }
      match create_image_directories env paths with
      | .error e => .error e
      | .ok _ => .ok st

/-! ### Datadir selection (`_find_best_datadir`, lines 299-332) -/

/-- Python truthiness of `best_datadir` (`None` and `""` are falsy). -/
def isTruthy : Option String → Bool
  | none => false
  | some s => s ≠ ""

/-- The inner loop of `_find_best_datadir`: scan the datadirs of one
priority tier, keeping the running `(best_datadir, max_free_space)`.
A directory displaces the running best when its free space is at least the
requested size and strictly greater than the running maximum. -/
def tierScan (free : String → Nat) (image_size : Nat) :
    List String → Option String → Nat → Option String × Nat
  | [], best, maxFree => (best, maxFree)
  | d :: rest, best, maxFree =>
    let f := free d
    if image_size ≤ f ∧ maxFree < f then
      tierScan free image_size rest (some d) f
    else
      tierScan free image_size rest best maxFree

/-- The outer loop of `_find_best_datadir`: traverse `priority_list`;
after each tier, break when `best_datadir` is truthy; the `for ... else`
raises `StorageFull` when the loop finishes without a break.  Also returns
the list of directories whose capacity was probed, in probe order. -/
def tiersScan (free : String → Nat) (image_size : Nat) (pdm : List (Nat × List String)) :
    List Nat → Option String → Nat → List String → Except StoreError String × List String
  | [], _, _, probed => (.error .StorageFull, probed)
  | p :: rest, best, maxFree, probed =>
    let dirs := pdmGet pdm p
    let bm := tierScan free image_size dirs best maxFree
    if isTruthy bm.1 then
      (.ok (bm.1.getD ""), probed ++ dirs)
    else
      tiersScan free image_size pdm rest bm.1 bm.2 (probed ++ dirs)

/-- `Store._find_best_datadir`.  `free` is the oracle for
`_get_capacity_info`; the second component records every probe made. -/
def find_best_datadir (st : StoreState) (free : String → Nat) (image_size : Nat) :
    Except StoreError String × List String :=
  if ¬ st.multiple_datadirs then
    (.ok st.datadir, [])
  else
    tiersScan free image_size st.priority_data_map st.priority_list none 0 []

/-! ### The filesystem and the read path -/

/-- The files visible to the store: an association list from path to
contents. -/
abbrev FS := List (String × Bytes)

def fsLookup (fs : FS) (p : String) : Option Bytes :=
  ((fs.find? fun e => e.1 = p).map Prod.snd)

/-- `os.path.exists`. -/
def fsExists (fs : FS) (p : String) : Bool := (fsLookup fs p).isSome

def fsInsert (fs : FS) (p : String) (b : Bytes) : FS := (p, b) :: fs

/-- `os.unlink` on a present file. -/
def fsRemove (fs : FS) (p : String) : FS := fs.filter fun e => e.1 ≠ p

/-- `ChunkedFile.CHUNKSIZE`. -/
def CHUNKSIZE : Nat := 65536

/-- Cut a byte string into chunks of at most `n` bytes, in order.  This is
both what `ChunkedFile.__iter__` produces (with `n = CHUNKSIZE`) by reading
`fp.read(CHUNKSIZE)` until empty, and what the chunked-read helper
`utils.chunkreadable` produces from a stream (helper not under `src/`;
modelled from the spec: "a chunked-read helper that turns an arbitrary input
stream into a bounded-size chunk sequence"). -/
def chunkList (n : Nat) (l : Bytes) : List Bytes :=
  if h : l = [] ∨ n = 0 then []
  else l.take n :: chunkList n (l.drop n)
  termination_by l.length
  decreasing_by
    simp only [not_or] at h
    simp only [List.length_drop]
    exact Nat.sub_lt (List.length_pos.mpr h.1) (Nat.pos_of_ne_zero h.2)

/-- The chunk sequence `ChunkedFile(filepath)` yields for given contents. -/
def ChunkedFile_chunks (contents : Bytes) : List Bytes := chunkList CHUNKSIZE contents

/-- `Store._resolve_location` (lines 194-202): `NotFound` when the path is
absent, otherwise the path and `os.path.getsize`.  A location is represented
by its `store_location.path`. -/
def resolve_location (fs : FS) (path : String) : Except StoreError (String × Nat) :=
  match fsLookup fs path with
  | none => .error .NotFound
  | some b => .ok (path, b.length)

/-- `Store.get` (lines 231-244): the `ChunkedFile` generator and the size. -/
def get (fs : FS) (path : String) : Except StoreError (List Bytes × Nat) := do
  let (filepath, filesize) ← resolve_location fs path
  return (ChunkedFile_chunks ((fsLookup fs filepath).getD []), filesize)

/-- `Store.get_size` (lines 246-259). -/
def get_size (fs : FS) (path : String) : Except StoreError Nat := do
  let (_, filesize) ← resolve_location fs path
  return filesize

/-- Whether `os.unlink` succeeds on a path (permission environment). -/
structure UnlinkEnv where
  unlinkOk : String → Bool

/-- `Store.delete` (lines 261-281): `NotFound` when the path does not exist,
`Forbidden` when the unlink raises `OSError`, otherwise remove the file. -/
def delete (env : UnlinkEnv) (fs : FS) (path : String) : Except StoreError Unit × FS :=
  if fsExists fs path then
    if env.unlinkOk path then (.ok (), fsRemove fs path)
    else (.error .Forbidden, fs)
  else
    (.error .NotFound, fs)

/-! ### The write path (`Store.add`, lines 334-397) -/

def EACCES : Nat := 13
def EFBIG : Nat := 27
def ENOSPC : Nat := 28

/-- What interrupts the streaming write loop: an `IOError` with an `errno`,
or any other exception (for example the `AttributeError` raised by a broken
reader in the repository's tests). -/
inductive WriteFailure where
  | io (eno : Nat)
  | other (tag : String)
  deriving DecidableEq, Repr

/-- The behaviour of `image_file` as consumed through `utils.chunkreadable`:
the chunks delivered before any trouble, then optionally a failure.  A
failure of `open` itself is represented as a failure after zero chunks
(the final filesystem state and the signaled error coincide, because
`_delete_partial` swallows the unlink error either way). -/
structure Stream where
  chunks : List Bytes
  failure : Option WriteFailure
  deriving DecidableEq, Repr

/-- `os.path.flatten(datadir, str(image_id))`. -/
def mkFilepath (datadir image_id : String) : String := datadir ++ "/" ++ image_id

/-- `Store._delete_partial` (lines 391-397): try to unlink; any exception is
only logged, so the function is total — the file simply stays when the
unlink fails. -/
def delete_partial_file (env : UnlinkEnv) (fs : FS) (filepath : String) : FS :=
  if env.unlinkOk filepath then fsRemove fs filepath else fs

/-- The running state of the write loop (lines 361-369): file contents so
far, `bytes_written`, and the bytes fed to `checksum.update` in order.  The
checksum object is represented by the byte string it has absorbed; the
returned hex digest is a pure function (MD5) of that byte string. -/
structure WriteAcc where
  fileBytes : Bytes
  bytes_written : Nat
  checksumFed : Bytes
  deriving DecidableEq, Repr

def writeStep (acc : WriteAcc) (buf : Bytes) : WriteAcc :=
  { fileBytes := acc.fileBytes ++ buf
    bytes_written := acc.bytes_written + buf.length
    checksumFed := acc.checksumFed ++ buf }

def writeLoop (chunks : List Bytes) : WriteAcc :=
  chunks.foldl writeStep ⟨[], 0, []⟩

/-- The error translation at lines 370-376:
`exceptions = {EFBIG: StorageFull(), ENOSPC: StorageFull(),
EACCES: StorageWriteDenied()}; raise exceptions.get(e.errno, e)`. -/
def translateIOError (eno : Nat) : StoreError :=
  if eno = EFBIG then .StorageFull
  else if eno = ENOSPC then .StorageFull
  else if eno = EACCES then .StorageWriteDenied
  else .IOError eno

/-- What a successful `add` returns (the metadata mapping is loaded from an
optional external JSON file and never affects the claims; it is elided). -/
structure AddOk where
  location : String
  bytes_written : Nat
  checksumFed : Bytes
  deriving DecidableEq, Repr

/-- `Store.add`:
choose a datadir, fail with `Duplicate` when the target exists, stream the
chunks while accumulating checksum and byte count; on an `IOError` delete
the partial file unless `errno == EACCES` and raise the translated error;
on any other exception delete the partial file and re-raise. -/
def add (st : StoreState) (free : String → Nat) (uenv : UnlinkEnv) (fs : FS)
    (image_id : String) (stream : Stream) (image_size : Nat) :
    Except StoreError AddOk × FS :=
  match (find_best_datadir st free image_size).1 with
  | .error e => (.error e, fs)
  | .ok datadir =>
    let filepath := mkFilepath datadir image_id
    if fsExists fs filepath then
      (.error .Duplicate, fs)
    else
      let acc := writeLoop stream.chunks
      let fsWritten := fsInsert fs filepath acc.fileBytes
      match stream.failure with
      | none =>
        (.ok { location := "file://" ++ filepath
               bytes_written := acc.bytes_written
               checksumFed := acc.checksumFed }, fsWritten)
      | some (.io eno) =>
        let fs' := if eno ≠ EACCES then delete_partial_file uenv fsWritten filepath else fsWritten
        (.error (translateIOError eno), fs')
      | some (.other tag) =>
        (.error (.OtherException tag), delete_partial_file uenv fsWritten filepath)

/-! ### Helper lemmas: chunking and the write loop -/

/-- Concatenating the chunks of a byte string gives the byte string back,
for every positive chunk size. -/
theorem chunkList_join (n : Nat) (hn : n ≠ 0) (l : Bytes) : (chunkList n l).flatten = l := by
  suffices key : ∀ len (l0 : Bytes), l0.length = len → (chunkList n l0).flatten = l0 from
    key l.length l rfl
  intro len
  induction len using Nat.strong_induction_on with
  | _ len ih =>
    intro l0 hlen
    rw [chunkList]
    split
    · rename_i h
      rcases h with h | h
      · simp [h]
      · exact absurd h hn
    · rename_i h
      simp only [not_or] at h
      have hlt : (l0.drop n).length < len := by
        subst hlen
        simp only [List.length_drop]
        exact Nat.sub_lt (List.length_pos.mpr h.1) (Nat.pos_of_ne_zero h.2)
      have ih' := ih (l0.drop n).length hlt (l0.drop n) rfl
      simp [ih', List.take_append_drop]

theorem foldl_writeStep (cs : List Bytes) : ∀ acc : WriteAcc,
    cs.foldl writeStep acc =
      ⟨acc.fileBytes ++ cs.flatten, acc.bytes_written + cs.flatten.length,
       acc.checksumFed ++ cs.flatten⟩ := by
  induction cs with
  | nil => intro acc; simp [List.flatten]
  | cons c rest ih =>
    intro acc
    simp [List.foldl, ih, writeStep, Nat.add_assoc]

/-- The write loop writes exactly the concatenation of the chunks, counts
its length, and feeds the same bytes to the checksum. -/
theorem writeLoop_eq (cs : List Bytes) :
    writeLoop cs = ⟨cs.flatten, cs.flatten.length, cs.flatten⟩ := by
  simp [writeLoop, foldl_writeStep]

/-! ### Helper lemmas: the selection scan -/

/-- A directory qualifies for a request when its free space is at least the
requested size; the code additionally demands strictly positive free space
(the running maximum starts at `0` and is only displaced by strictly more). -/
def qualifies (free : String → Nat) (size : Nat) (d : String) : Prop :=
  size ≤ free d ∧ 0 < free d

instance (free : String → Nat) (size : Nat) (d : String) :
    Decidable (qualifies free size d) := by
  unfold qualifies; infer_instance

/-- Invariant carried by `(best_datadir, max_free_space)`. -/
def scanInv (free : String → Nat) (size : Nat) : Option String × Nat → Prop
  | (none, m) => m = 0
  | (some d, m) => free d = m ∧ size ≤ m ∧ 0 < m

theorem tierScan_inv (free : String → Nat) (size : Nat) (dirs : List String) :
    ∀ b m, scanInv free size (b, m) →
      scanInv free size (tierScan free size dirs b m) := by
  induction dirs with
  | nil => intro b m h; simpa [tierScan] using h
  | cons d rest ih =>
    intro b m h
    simp only [tierScan]
    split
    · rename_i hc
      refine ih _ _ ?_
      refine ⟨rfl, hc.1, ?_⟩
      cases b with
      | none => simp only [scanInv] at h; omega
      | some x => simp only [scanInv] at h; omega
    · exact ih _ _ h

theorem tierScan_snd_mono (free : String → Nat) (size : Nat) (dirs : List String) :
    ∀ b m, m ≤ (tierScan free size dirs b m).2 := by
  induction dirs with
  | nil => intro b m; simp [tierScan]
  | cons d rest ih =>
    intro b m
    simp only [tierScan]
    split
    · rename_i hc
      exact le_trans (le_of_lt hc.2) (ih _ _)
    · exact ih _ _

/-- Every directory of the tier with enough free space ends up bounded by
the final running maximum. -/
theorem tierScan_max (free : String → Nat) (size : Nat) (dirs : List String) :
    ∀ b m d, d ∈ dirs → size ≤ free d →
      free d ≤ (tierScan free size dirs b m).2 := by
  induction dirs with
  | nil => intro b m d hd; exact absurd hd (List.not_mem_nil d)
  | cons x rest ih =>
    intro b m d hd hs
    rcases List.mem_cons.mp hd with h | h
    · subst h
      simp only [tierScan]
      split
      · exact tierScan_snd_mono free size rest _ _
      · rename_i hc
        have : free d ≤ m := by
          rcases Nat.lt_or_ge m (free d) with hlt | hle
          · exact absurd ⟨hs, hlt⟩ hc
          · exact hle
        exact le_trans this (tierScan_snd_mono free size rest _ _)
    · simp only [tierScan]
      split
      · exact ih _ _ d h hs
      · exact ih _ _ d h hs

/-- Once `best_datadir` is set it never reverts to `None`. -/
theorem tierScan_isSome (free : String → Nat) (size : Nat) (dirs : List String) :
    ∀ b m, b.isSome → (tierScan free size dirs b m).1.isSome := by
  induction dirs with
  | nil => intro b m h; simpa [tierScan] using h
  | cons d rest ih =>
    intro b m h
    simp only [tierScan]
    split
    · exact ih _ _ rfl
    · exact ih _ _ h

/-- If nothing in the tier qualifies, a `(None, 0)` accumulator survives. -/
theorem tierScan_none (free : String → Nat) (size : Nat) (dirs : List String)
    (h : ∀ d ∈ dirs, ¬ qualifies free size d) :
    tierScan free size dirs none 0 = (none, 0) := by
  induction dirs with
  | nil => simp [tierScan]
  | cons d rest ih =>
    simp only [tierScan]
    split
    · rename_i hc
      exact absurd ⟨hc.1, hc.2⟩ (h d (List.mem_cons_self d rest))
    · exact ih fun x hx => h x (List.mem_cons_of_mem d hx)

/-- If some directory of the tier qualifies, the scan from `(None, 0)` ends
with a tracked best directory. -/
theorem tierScan_found (free : String → Nat) (size : Nat) (dirs : List String)
    (h : ∃ d ∈ dirs, qualifies free size d) :
    (tierScan free size dirs none 0).1.isSome := by
  induction dirs with
  | nil => rcases h with ⟨d, hd, _⟩; exact absurd hd (List.not_mem_nil d)
  | cons d rest ih =>
    simp only [tierScan]
    split
    · exact tierScan_isSome free size rest _ _ rfl
    · rename_i hc
      rcases h with ⟨x, hx, hq⟩
      rcases List.mem_cons.mp hx with h' | h'
      · subst h'
        exact absurd ⟨hq.1, hq.2⟩ hc
      · exact ih ⟨x, h', hq⟩

/-- The tracked best directory comes from the scanned tier (or was already
tracked before the tier). -/
theorem tierScan_mem (free : String → Nat) (size : Nat) (dirs : List String) :
    ∀ b m d, (tierScan free size dirs b m).1 = some d → d ∈ dirs ∨ b = some d := by
  induction dirs with
  | nil => intro b m d h; simp only [tierScan] at h; right; exact h
  | cons x rest ih =>
    intro b m d h
    simp only [tierScan] at h
    split at h
    · rcases ih _ _ d h with h' | h'
      · exact Or.inl (List.mem_cons_of_mem x h')
      · exact Or.inl (Option.some.inj h' ▸ List.mem_cons_self x rest)
    · rcases ih _ _ d h with h' | h'
      · exact Or.inl (List.mem_cons_of_mem x h')
      · exact Or.inr h'

/-! ### Helper lemmas: configuration invariants -/

/-- No priority tier of the map contains the empty path (`configure_add`
only appends non-empty `datadir_path`s). -/
def PdmClean (pdm : List (Nat × List String)) : Prop := ∀ e ∈ pdm, "" ∉ e.2

theorem pdmGet_clean {pdm : List (Nat × List String)} (h : PdmClean pdm) (p : Nat) :
    "" ∉ pdmGet pdm p := by
  unfold pdmGet
  cases hf : pdm.find? fun kv => kv.1 = p with
  | none => simp
  | some kv =>
    simp only [Option.map_some', Option.getD_some]
    exact h kv (List.mem_of_find?_eq_some hf)

theorem pdmAppend_clean (k : Nat) (v : String) (hv : v ≠ "") :
    ∀ pdm, PdmClean pdm → PdmClean (pdmAppend k v pdm) := by
  intro pdm
  induction pdm with
  | nil =>
    intro _ e he
    simp only [pdmAppend, List.mem_singleton] at he
    subst he
    simp [hv, Ne.symm hv]
  | cons kv rest ih =>
    intro h e he
    simp only [pdmAppend] at he
    split at he
    · rcases List.mem_cons.mp he with h' | h'
      · subst h'
        simp only [List.mem_append, List.mem_singleton]
        rintro (hin | hin)
        · exact h kv (List.mem_cons_self kv rest) hin
        · exact hv hin.symm
      · exact h e (List.mem_cons_of_mem kv h')
    · rcases List.mem_cons.mp he with h' | h'
      · subst h'
        exact h kv (List.mem_cons_self kv rest)
      · exact ih (fun x hx => h x (List.mem_cons_of_mem kv hx)) e h'

theorem configureTail_clean {acc acc' : List (Nat × List String) × List String}
    {prio : Nat} {path : String} (h : PdmClean acc.1)
    (he : configureTail acc prio path = .ok acc') : PdmClean acc'.1 := by
  unfold configureTail at he
  split at he
  · rename_i hpath
    cases he
    exact pdmAppend_clean prio path hpath acc.1 h
  · cases he
    exact h

theorem configureEntry_clean {acc acc' : List (Nat × List String) × List String}
    {e : String} (h : PdmClean acc.1) (he : configureEntry acc e = .ok acc') :
    PdmClean acc'.1 := by
  simp only [configureEntry] at he
  split at he
  · split at he
    · cases he
    · exact configureTail_clean h he
  · exact configureTail_clean h he

theorem foldlM_configureEntry_clean :
    ∀ (conf : List String) (acc res : List (Nat × List String) × List String),
      PdmClean acc.1 → conf.foldlM configureEntry acc = .ok res → PdmClean res.1 := by
  intro conf
  induction conf with
  | nil =>
    intro acc res h hr
    simp only [List.foldlM_nil] at hr
    cases hr
    exact h
  | cons e rest ih =>
    intro acc res h hr
    simp only [List.foldlM_cons] at hr
    cases he : configureEntry acc e with
    | error err => rw [he] at hr; cases hr
    | ok acc' =>
      rw [he] at hr
      exact ih acc' res (configureEntry_clean h he) hr

theorem mem_insertDesc {x z : Nat} : ∀ {l : List Nat}, z ∈ insertDesc x l → z = x ∨ z ∈ l := by
  intro l
  induction l with
  | nil =>
    intro h
    simp only [insertDesc, List.mem_singleton] at h
    exact Or.inl h
  | cons y ys ih =>
    intro h
    simp only [insertDesc] at h
    split at h
    · rcases List.mem_cons.mp h with h' | h'
      · exact Or.inl h'
      · exact Or.inr h'
    · rcases List.mem_cons.mp h with h' | h'
      · exact Or.inr (h' ▸ List.mem_cons_self y ys)
      · rcases ih h' with h'' | h''
        · exact Or.inl h''
        · exact Or.inr (List.mem_cons_of_mem y h'')

theorem pairwise_insertDesc (x : Nat) :
    ∀ l : List Nat, l.Pairwise (fun a b => b ≤ a) →
      (insertDesc x l).Pairwise (fun a b => b ≤ a) := by
  intro l
  induction l with
  | nil => intro _; simp [insertDesc]
  | cons y ys ih =>
    intro h
    rw [List.pairwise_cons] at h
    simp only [insertDesc]
    split
    · rename_i hyx
      refine List.pairwise_cons.mpr ⟨?_, List.pairwise_cons.mpr h⟩
      intro z hz
      rcases List.mem_cons.mp hz with h' | h'
      · omega
      · have := h.1 z h'
        omega
    · rename_i hxy
      refine List.pairwise_cons.mpr ⟨?_, ih h.2⟩
      intro z hz
      rcases mem_insertDesc hz with h' | h'
      · omega
      · exact h.1 z h'

/-- The priority list built by `configure_add` is sorted descending. -/
theorem sortDesc_pairwise (l : List Nat) :
    (sortDesc l).Pairwise (fun a b => b ≤ a) := by
  induction l with
  | nil => simp [sortDesc]
  | cons x xs ih => exact pairwise_insertDesc x _ ih

/-- Inversion of `configure_add` in the multi-directory case. -/
theorem configure_add_multi_inv {env : DirEnv} {conf : List String} {st : StoreState}
    (h : configure_add env conf = .ok st) (hm : st.multiple_datadirs = true) :
    ∃ pdm paths, conf.foldlM configureEntry ([], []) = .ok (pdm, paths) ∧
      st.priority_data_map = pdm ∧ st.priority_list = sortDesc (pdm.map Prod.fst) := by
  simp only [configure_add] at h
  split at h
  · cases h
  · split at h
    · split at h
      · cases h
      · cases h
        cases hm
    · split at h
      · cases h
      · rename_i pdm paths hf
        split at h
        · cases h
        · cases h
          exact ⟨pdm, paths, hf, rfl, rfl⟩

/-- The priority map installed by a successful `configure_add` never holds
the empty path. -/
theorem configure_add_clean {env : DirEnv} {conf : List String} {st : StoreState}
    (h : configure_add env conf = .ok st) : PdmClean st.priority_data_map := by
  simp only [configure_add] at h
  split at h
  · cases h
  · split at h
    · split at h
      · cases h
      · cases h
        intro e he
        simp at he
    · split at h
      · cases h
      · rename_i pdm paths hf
        split at h
        · cases h
        · cases h
          exact foldlM_configureEntry_clean conf ([], []) (pdm, paths)
            (by intro e he; simp at he) hf

/-! ### Helper lemmas: the tier traversal -/

/-- A falsy scan result over a tier without the empty path is exactly the
untouched `(None, 0)` accumulator. -/
theorem tierScan_falsy (free : String → Nat) (size : Nat) (dirs : List String)
    (hclean : "" ∉ dirs)
    (hfal : isTruthy (tierScan free size dirs none 0).1 = false) :
    tierScan free size dirs none 0 = (none, 0) := by
  have hinv := tierScan_inv free size dirs none 0 (by simp [scanInv])
  rcases hr : tierScan free size dirs none 0 with ⟨b, m⟩
  rw [hr] at hinv hfal
  cases b with
  | none =>
    simp only [scanInv] at hinv
    simp [hinv]
  | some x =>
    simp only [isTruthy] at hfal
    have hx : x = "" := by simpa using hfal
    subst hx
    rcases tierScan_mem free size dirs none 0 "" (by rw [hr]) with hmem | hctr
    · exact absurd hmem hclean
    · cases hctr

/-- When no tier holds a qualifying directory the traversal probes every
directory of every tier and ends in `StorageFull`. -/
theorem tiersScan_storage_full (free : String → Nat) (size : Nat)
    (pdm : List (Nat × List String)) :
    ∀ (plist : List Nat) (probed : List String),
      (∀ p ∈ plist, ∀ d ∈ pdmGet pdm p, ¬ qualifies free size d) →
      tiersScan free size pdm plist none 0 probed =
        (.error .StorageFull, probed ++ (plist.map (pdmGet pdm)).flatten) := by
  intro plist
  induction plist with
  | nil => intro probed _; simp [tiersScan]
  | cons p rest ih =>
    intro probed hall
    simp only [tiersScan]
    rw [tierScan_none free size (pdmGet pdm p) (hall p (List.mem_cons_self p rest))]
    simp only [isTruthy, Bool.false_eq_true, if_false]
    rw [ih (probed ++ pdmGet pdm p) (fun q hq => hall q (List.mem_cons_of_mem p hq))]
    simp

/-- When the leading tiers hold no qualifying directory and tier `p0` does,
the traversal stops at tier `p0` (probing exactly the tiers up to and
including it) and returns a qualifying directory of that tier with maximal
free space among its qualifiers. -/
theorem tiersScan_first_tier (free : String → Nat) (size : Nat)
    (pdm : List (Nat × List String)) (hclean : PdmClean pdm) :
    ∀ (pre : List Nat) (p0 : Nat) (post : List Nat) (probed : List String),
      (∀ p ∈ pre, ∀ d ∈ pdmGet pdm p, ¬ qualifies free size d) →
      (∃ d ∈ pdmGet pdm p0, qualifies free size d) →
      ∃ dBest,
        tiersScan free size pdm (pre ++ p0 :: post) none 0 probed =
          (.ok dBest, probed ++ ((pre ++ [p0]).map (pdmGet pdm)).flatten) ∧
        dBest ∈ pdmGet pdm p0 ∧ qualifies free size dBest ∧
        ∀ d ∈ pdmGet pdm p0, size ≤ free d → free d ≤ free dBest := by
  intro pre
  induction pre with
  | nil =>
    intro p0 post probed _ hex
    simp only [List.nil_append, tiersScan]
    have hfound := tierScan_found free size (pdmGet pdm p0) hex
    rcases hr : tierScan free size (pdmGet pdm p0) none 0 with ⟨b, m⟩
    rw [hr] at hfound
    cases b with
    | none => simp at hfound
    | some x =>
      have hinv := tierScan_inv free size (pdmGet pdm p0) none 0 (by simp [scanInv])
      rw [hr] at hinv
      obtain ⟨hfx, hsz, hpos⟩ := hinv
      have hxmem : x ∈ pdmGet pdm p0 := by
        rcases tierScan_mem free size (pdmGet pdm p0) none 0 x (by rw [hr]) with hm | hc
        · exact hm
        · cases hc
      have hxne : x ≠ "" := fun hx => (pdmGet_clean hclean p0) (hx ▸ hxmem)
      refine ⟨x, ?_, hxmem, ⟨by omega, by omega⟩, ?_⟩
      · simp [isTruthy, hxne]
      · intro d hd hs
        have := tierScan_max free size (pdmGet pdm p0) none 0 d hd hs
        rw [hr] at this
        omega
  | cons q pre' ih =>
    intro p0 post probed hpre hex
    simp only [List.cons_append, tiersScan]
    rw [tierScan_none free size (pdmGet pdm q) (hpre q (List.mem_cons_self q pre'))]
    simp only [isTruthy, Bool.false_eq_true, if_false]
    obtain ⟨dB, heq, hmem, hq, hmax⟩ :=
      ih p0 post (probed ++ pdmGet pdm q)
        (fun p hp => hpre p (List.mem_cons_of_mem q hp)) hex
    refine ⟨dB, ?_, hmem, hq, hmax⟩
    simp only [List.append_eq]
    rw [heq]
    simp [List.append_assoc]

/-- Any directory the traversal returns qualifies: its free space is at
least the requested size and strictly positive. -/
theorem tiersScan_ok_qualifies (free : String → Nat) (size : Nat)
    (pdm : List (Nat × List String)) (hclean : PdmClean pdm) :
    ∀ (plist : List Nat) (probed : List String) (d : String) (log : List String),
      tiersScan free size pdm plist none 0 probed = (.ok d, log) →
      qualifies free size d := by
  intro plist
  induction plist with
  | nil =>
    intro probed d log h
    simp [tiersScan] at h
  | cons p rest ih =>
    intro probed d log h
    simp only [tiersScan] at h
    by_cases hfal : isTruthy (tierScan free size (pdmGet pdm p) none 0).1 = false
    · rw [tierScan_falsy free size _ (pdmGet_clean hclean p) hfal] at h
      simp only [isTruthy, Bool.false_eq_true, if_false] at h
      exact ih (probed ++ pdmGet pdm p) d log h
    · have htru : isTruthy (tierScan free size (pdmGet pdm p) none 0).1 = true := by
        cases hb : isTruthy (tierScan free size (pdmGet pdm p) none 0).1
        · exact absurd hb hfal
        · rfl
      have hinv := tierScan_inv free size (pdmGet pdm p) none 0 (by simp [scanInv])
      rcases hr : tierScan free size (pdmGet pdm p) none 0 with ⟨b, m⟩
      rw [hr] at h htru hinv
      cases b with
      | none => simp [isTruthy] at htru
      | some x =>
        rw [if_pos htru] at h
        obtain ⟨hfx, hsz, hpos⟩ := hinv
        have h1 := congrArg Prod.fst h
        simp only [Option.getD_some] at h1
        injection h1 with h1
        subst h1
        exact ⟨by omega, by omega⟩

/-- In multi-directory mode `_find_best_datadir` is the tier traversal. -/
theorem find_best_datadir_multi {st : StoreState} (hm : st.multiple_datadirs = true)
    (free : String → Nat) (size : Nat) :
    find_best_datadir st free size =
      tiersScan free size st.priority_data_map st.priority_list none 0 [] := by
  unfold find_best_datadir
  rw [hm]
  simp

/-! ### Helper lemmas: the filesystem model and the write path -/

theorem fsLookup_fsInsert (fs : FS) (p : String) (b : Bytes) :
    fsLookup (fsInsert fs p b) p = some b := by
  simp [fsLookup, fsInsert, List.find?]

theorem fsLookup_fsRemove (fs : FS) (p : String) :
    fsLookup (fsRemove fs p) p = none := by
  induction fs with
  | nil => rfl
  | cons e rest ih =>
    by_cases h : e.1 = p
    · simpa [fsRemove, List.filter_cons, h] using ih
    · simpa [fsRemove, fsLookup, List.filter_cons, List.find?, h] using ih

theorem fsExists_fsRemove (fs : FS) (p : String) :
    fsExists (fsRemove fs p) p = false := by
  simp [fsExists, fsLookup_fsRemove]

/-- Evaluation of `add` when the write loop completes without failure. -/
theorem add_eq_of_success {st : StoreState} {free : String → Nat} {uenv : UnlinkEnv}
    {fs : FS} {image_id datadir : String} {size : Nat} (cs : List Bytes)
    (hfind : (find_best_datadir st free size).1 = .ok datadir)
    (hfresh : fsExists fs (mkFilepath datadir image_id) = false) :
    add st free uenv fs image_id ⟨cs, none⟩ size =
      (.ok ⟨"file://" ++ mkFilepath datadir image_id, cs.flatten.length, cs.flatten⟩,
       fsInsert fs (mkFilepath datadir image_id) cs.flatten) := by
  unfold add
  rw [hfind]
  simp only [hfresh, Bool.false_eq_true, if_false, writeLoop_eq]

/-- Evaluation of `add` when the write loop is interrupted by a failure. -/
theorem add_eq_of_failure {st : StoreState} {free : String → Nat} {uenv : UnlinkEnv}
    {fs : FS} {image_id datadir : String} {size : Nat} (cs : List Bytes) (f : WriteFailure)
    (hfind : (find_best_datadir st free size).1 = .ok datadir)
    (hfresh : fsExists fs (mkFilepath datadir image_id) = false) :
    add st free uenv fs image_id ⟨cs, some f⟩ size =
      (match f with
       | .io eno =>
         (.error (translateIOError eno),
          if eno ≠ EACCES then
            delete_partial_file uenv
              (fsInsert fs (mkFilepath datadir image_id) cs.flatten)
              (mkFilepath datadir image_id)
          else fsInsert fs (mkFilepath datadir image_id) cs.flatten)
       | .other tag =>
         (.error (.OtherException tag),
          delete_partial_file uenv
            (fsInsert fs (mkFilepath datadir image_id) cs.flatten)
            (mkFilepath datadir image_id))) := by
  unfold add
  rw [hfind]
  simp only [hfresh, Bool.false_eq_true, if_false, writeLoop_eq]
  cases f <;> rfl

/-- After a successful cleanup the partial file is gone. -/
theorem delete_partial_removes {uenv : UnlinkEnv} (fs : FS) (p : String)
    (hok : uenv.unlinkOk p = true) :
    fsExists (delete_partial_file uenv fs p) p = false := by
  simp [delete_partial_file, hok, fsExists_fsRemove]

/-! ### Claims about configuration and selection -/

/-- Claim C1, counterexample: the claim "if any directory in a tier has free
space at least the requested size, the best one of that tier is returned"
fails at requested size `0` when every directory probes `0` free bytes: the
directory `a` of the highest tier satisfies `free ≥ size` (`0 ≥ 0`), yet
`_find_best_datadir` raises `StorageFull`, because a candidate must have
free space strictly greater than the running maximum initialized to `0`. -/
theorem C1_counterexample :
    configure_add allExistEnv ["a:2", "b:1"] =
      .ok ⟨true, "", [(2, ["a"]), (1, ["b"])], [2, 1]⟩ ∧
    pdmGet [(2, ["a"]), (1, ["b"])] 2 = ["a"] ∧
    (0 : Nat) ≤ (fun _ : String => (0 : Nat)) "a" ∧
    (find_best_datadir ⟨true, "", [(2, ["a"]), (1, ["b"])], [2, 1]⟩
        (fun _ : String => (0 : Nat)) 0).1 = .error .StorageFull := by
  refine ⟨by decide, by decide, Nat.le_refl 0, by decide⟩

/-- Claim C1, amended: for every multi-directory configuration,
`_find_best_datadir` iterates the priority tiers from highest to lowest;
within a tier it probes the free space of every member directory and tracks
the qualifying directory with maximum free space, where a directory
qualifies when its free space is at least the requested size *and strictly
positive*; if a tier holds a qualifying directory the best one of that tier
is returned and no lower tier is ever probed; if no tier holds a qualifying
directory, `StorageFull` is raised. -/
theorem C1_tier_selection {env : DirEnv} {conf : List String} {st : StoreState}
    (hc : configure_add env conf = .ok st) (hm : st.multiple_datadirs = true)
    (free : String → Nat) (size : Nat) :
    st.priority_list.Pairwise (fun a b => b ≤ a) ∧
    (∀ pre p0 post, st.priority_list = pre ++ p0 :: post →
      (∀ p ∈ pre, ∀ d ∈ pdmGet st.priority_data_map p, ¬ qualifies free size d) →
      (∃ d ∈ pdmGet st.priority_data_map p0, qualifies free size d) →
      ∃ dBest,
        find_best_datadir st free size =
          (.ok dBest, ((pre ++ [p0]).map (pdmGet st.priority_data_map)).flatten) ∧
        dBest ∈ pdmGet st.priority_data_map p0 ∧ qualifies free size dBest ∧
        ∀ d ∈ pdmGet st.priority_data_map p0, size ≤ free d → free d ≤ free dBest) ∧
    ((∀ p ∈ st.priority_list, ∀ d ∈ pdmGet st.priority_data_map p,
        ¬ qualifies free size d) →
      (find_best_datadir st free size).1 = .error .StorageFull) := by
  obtain ⟨pdm, paths, hf, hpdm, hpl⟩ := configure_add_multi_inv hc hm
  have hclean := configure_add_clean hc
  refine ⟨?_, ?_, ?_⟩
  · rw [hpl]
    exact sortDesc_pairwise _
  · intro pre p0 post hsplit hpre hex
    obtain ⟨dB, heq, hmem, hq, hmax⟩ :=
      tiersScan_first_tier free size st.priority_data_map hclean pre p0 post [] hpre hex
    refine ⟨dB, ?_, hmem, hq, hmax⟩
    rw [find_best_datadir_multi hm, hsplit]
    simpa using heq
  · intro hall
    rw [find_best_datadir_multi hm,
      tiersScan_storage_full free size st.priority_data_map st.priority_list [] hall]

theorem C1_tier_selection_witness :
    (find_best_datadir ⟨true, "", [(2, ["a"]), (1, ["b"])], [2, 1]⟩
        (fun d : String => if d = "b" then 5 else 0) 3).1 = .ok "b" := by
  obtain ⟨dB, h1, hmem, -, -⟩ :=
    (@C1_tier_selection allExistEnv ["a:2", "b:1"]
        ⟨true, "", [(2, ["a"]), (1, ["b"])], [2, 1]⟩ (by decide) rfl
        (fun d : String => if d = "b" then 5 else 0) 3).2.1
      [2] 1 [] rfl (by decide) ⟨"b", by decide, by decide⟩
  have hdB : dB = "b" := by
    have : pdmGet [(2, ["a"]), (1, ["b"])] 1 = ["b"] := by decide
    rw [this] at hmem
    simpa using hmem
  rw [h1, hdB]

/-- Claim C4: `configure_add` raises `BadStoreConfiguration` on an empty
datadir list; on a malformed `path:priority` entry it reaches the `raise`
at line 184, but evaluating its `reason=reason` argument reads the local
variable `reason` that was never assigned on this path, so Python raises
`UnboundLocalError` instead of the `BadStoreConfiguration` promised by the
claim and by the method's own docstring ("BadStoreConfiguration is raised
in following scenarios ... 2. priority specified along with image
directories is not mumeric").  Both failures still occur at configuration
time, before any write. -/
theorem C4_configuration_errors :
    configure_add allExistEnv [] = .error .BadStoreConfiguration ∧
    configure_add allExistEnv ["a:x", "b"] = .error (.UnboundLocalError "reason") ∧
    configure_add allExistEnv ["a:x", "b"] ≠ .error .BadStoreConfiguration := by
  refine ⟨by decide, by decide, by decide⟩

/-- Claim C5: with exactly one configured datadir (and its directory
creatable), configuration succeeds in single-directory mode and
`_find_best_datadir` returns that directory for every requested size with
an empty probe log — no capacity probe is performed at selection time. -/
theorem C5_single_datadir (env : DirEnv) (d : String)
    (hcreate : create_image_directories env [d] = .ok ()) :
    ∃ st, configure_add env [d] = .ok st ∧ st.multiple_datadirs = false ∧
      st.datadir = d ∧
      ∀ (free : String → Nat) (size : Nat),
        find_best_datadir st free size = (.ok d, []) := by
  refine ⟨⟨false, d, [], []⟩, ?_, rfl, rfl, ?_⟩
  · simp only [configure_add]
    rw [if_neg (by simp : ¬ ([d] : List String) = [])]
    rw [if_pos (by simp : ([d] : List String).length = 1)]
    simp only [List.headD_cons] at hcreate ⊢
    rw [hcreate]
    rfl
  · intro free size
    rfl

theorem C5_single_datadir_witness :
    configure_add allExistEnv ["d"] = .ok ⟨false, "d", [], []⟩ ∧
    find_best_datadir ⟨false, "d", [], []⟩ (fun _ : String => 0) 1000000000000 =
      (.ok "d", []) := by
  obtain ⟨st, h1, -, -, h4⟩ := C5_single_datadir allExistEnv "d" (by decide)
  have he : configure_add allExistEnv ["d"] = .ok (⟨false, "d", [], []⟩ : StoreState) := by
    decide
  rw [he] at h1
  injection h1 with h1
  rw [← h1] at h4
  exact ⟨he, h4 (fun _ => 0) 1000000000000⟩

/-- Claim C10: in multi-directory mode `_find_best_datadir` never returns a
directory whose probed free space is zero (a candidate needs free space
strictly above the running maximum, initialized to zero); in particular,
for requested size `0` with every directory probing `0` free bytes, the
selection raises `StorageFull` although each directory's free space is at
least the requested size. -/
theorem C10_no_zero_free_dir {env : DirEnv} {conf : List String} {st : StoreState}
    (hc : configure_add env conf = .ok st) (hm : st.multiple_datadirs = true)
    (free : String → Nat) (size : Nat) (d : String)
    (hok : (find_best_datadir st free size).1 = .ok d) :
    0 < free d ∧
    (find_best_datadir ⟨true, "", [(2, ["x"]), (1, ["y"])], [2, 1]⟩
        (fun _ : String => (0 : Nat)) 0).1 = .error .StorageFull := by
  have hclean := configure_add_clean hc
  refine ⟨?_, by decide⟩
  rw [find_best_datadir_multi hm] at hok
  rcases hr : tiersScan free size st.priority_data_map st.priority_list none 0 [] with ⟨res, log⟩
  rw [hr] at hok
  simp only at hok
  subst hok
  exact (tiersScan_ok_qualifies free size st.priority_data_map hclean
    st.priority_list [] d log hr).2

theorem C10_no_zero_free_dir_witness :
    0 < (fun d : String => if d = "b" then 5 else 0) "b" := by
  refine (@C10_no_zero_free_dir allExistEnv ["a:2", "b:1"]
      ⟨true, "", [(2, ["a"]), (1, ["b"])], [2, 1]⟩ (by decide) rfl
      (fun d : String => if d = "b" then 5 else 0) 3 "b" ?_).1
  decide

/-! ### Claims about the object-store operations -/

/-- Claim C6: when the target file `<datadir>/<id>` already exists, `add`
fails with `Duplicate` for every payload and leaves the filesystem — in
particular the existing file — unchanged. -/
theorem C6_duplicate_add {st : StoreState} {free : String → Nat} {uenv : UnlinkEnv}
    {fs : FS} {image_id datadir : String} (size : Nat) (stream : Stream)
    (hfind : (find_best_datadir st free size).1 = .ok datadir)
    (hexists : fsExists fs (mkFilepath datadir image_id) = true) :
    add st free uenv fs image_id stream size = (.error .Duplicate, fs) := by
  unfold add
  rw [hfind]
  simp [hexists]

theorem C6_duplicate_add_witness :
    add ⟨false, "d", [], []⟩ (fun _ : String => 0) ⟨fun _ => true⟩ [("d/i", [7])] "i"
        ⟨[[1]], none⟩ 0 = (.error .Duplicate, [("d/i", [7])]) :=
  C6_duplicate_add 0 ⟨[[1]], none⟩ rfl (by decide)

/-- Claim C3: an `IOError` during the streaming write is re-signaled through
the translation table: `EFBIG` and `ENOSPC` as `StorageFull`, `EACCES` as
`StorageWriteDenied`, any other `errno` as the original `IOError`
unmodified; a non-`IOError` exception is re-raised unmodified. -/
theorem C3_error_translation {st : StoreState} {free : String → Nat} {uenv : UnlinkEnv}
    {fs : FS} {image_id datadir : String} {size : Nat} (cs : List Bytes)
    (eno1 eno2 eno3 : Nat) (tag : String)
    (hfind : (find_best_datadir st free size).1 = .ok datadir)
    (hfresh : fsExists fs (mkFilepath datadir image_id) = false)
    (h1 : eno1 = EFBIG ∨ eno1 = ENOSPC)
    (h2 : eno2 = EACCES)
    (h3 : eno3 ≠ EFBIG ∧ eno3 ≠ ENOSPC ∧ eno3 ≠ EACCES) :
    (add st free uenv fs image_id ⟨cs, some (.io eno1)⟩ size).1 = .error .StorageFull ∧
    (add st free uenv fs image_id ⟨cs, some (.io eno2)⟩ size).1 = .error .StorageWriteDenied ∧
    (add st free uenv fs image_id ⟨cs, some (.io eno3)⟩ size).1 = .error (.IOError eno3) ∧
    (add st free uenv fs image_id ⟨cs, some (.other tag)⟩ size).1 =
      .error (.OtherException tag) := by
  refine ⟨?_, ?_, ?_, ?_⟩
  · rw [add_eq_of_failure cs (.io eno1) hfind hfresh]
    rcases h1 with h | h <;> subst h <;> rfl
  · rw [add_eq_of_failure cs (.io eno2) hfind hfresh]
    subst h2
    rfl
  · rw [add_eq_of_failure cs (.io eno3) hfind hfresh]
    simp only [translateIOError, if_neg h3.1, if_neg h3.2.1, if_neg h3.2.2]
  · rw [add_eq_of_failure cs (.other tag) hfind hfresh]

theorem C3_error_translation_witness :
    (add ⟨false, "d", [], []⟩ (fun _ : String => 0) ⟨fun _ => true⟩ [] "i"
        ⟨[[1]], some (.io 27)⟩ 1).1 = .error .StorageFull ∧
    (add ⟨false, "d", [], []⟩ (fun _ : String => 0) ⟨fun _ => true⟩ [] "i"
        ⟨[[1]], some (.io 13)⟩ 1).1 = .error .StorageWriteDenied ∧
    (add ⟨false, "d", [], []⟩ (fun _ : String => 0) ⟨fun _ => true⟩ [] "i"
        ⟨[[1]], some (.io 20)⟩ 1).1 = .error (.IOError 20) ∧
    (add ⟨false, "d", [], []⟩ (fun _ : String => 0) ⟨fun _ => true⟩ [] "i"
        ⟨[[1]], some (.other "AttributeError")⟩ 1).1 = .error (.OtherException "AttributeError") :=
  C3_error_translation [[1]] 27 13 20 "AttributeError" rfl (by decide)
    (Or.inl rfl) rfl (by decide)

/-- Claim C2, counterexample: the claim says the partial file is deleted on
*every* write-time failure, "including ... permission-denied conditions".
For an `IOError` with `errno == EACCES` raised after one chunk was written,
the code skips `_delete_partial` (line 371 guards the cleanup with
`e.errno != errno.EACCES`): `StorageWriteDenied` is signaled while the
partially written file is still present at the target path. -/
theorem C2_counterexample :
    (add ⟨false, "d", [], []⟩ (fun _ : String => 0) ⟨fun _ => true⟩ [] "i"
        ⟨[[1, 2]], some (.io EACCES)⟩ 3).1 = .error .StorageWriteDenied ∧
    fsExists (add ⟨false, "d", [], []⟩ (fun _ : String => 0) ⟨fun _ => true⟩ [] "i"
        ⟨[[1, 2]], some (.io EACCES)⟩ 3).2 "d/i" = true := by
  refine ⟨by decide, by decide⟩

/-- Claim C2, amended: for every failure raised while streaming bytes during
`add` *except* a permission-denied (`EACCES`) `IOError`, `_delete_partial`
removes the partially written file before the failure is re-signaled (the
file is gone whenever the unlink succeeds); for an `EACCES` failure the
cleanup is skipped and the partial file remains; a failure of the cleanup
itself is only logged — the translated failure is signaled either way. -/
theorem C2_partial_cleanup {st : StoreState} {free : String → Nat} {uenv : UnlinkEnv}
    {fs : FS} {image_id datadir : String} {size : Nat} (cs : List Bytes)
    (hfind : (find_best_datadir st free size).1 = .ok datadir)
    (hfresh : fsExists fs (mkFilepath datadir image_id) = false) :
    (∀ eno, eno ≠ EACCES →
      (uenv.unlinkOk (mkFilepath datadir image_id) = true →
        fsExists (add st free uenv fs image_id ⟨cs, some (.io eno)⟩ size).2
          (mkFilepath datadir image_id) = false) ∧
      (add st free uenv fs image_id ⟨cs, some (.io eno)⟩ size).1 =
        .error (translateIOError eno)) ∧
    (∀ tag : String,
      (uenv.unlinkOk (mkFilepath datadir image_id) = true →
        fsExists (add st free uenv fs image_id ⟨cs, some (.other tag)⟩ size).2
          (mkFilepath datadir image_id) = false) ∧
      (add st free uenv fs image_id ⟨cs, some (.other tag)⟩ size).1 =
        .error (.OtherException tag)) ∧
    (add st free uenv fs image_id ⟨cs, some (.io EACCES)⟩ size).2 =
      fsInsert fs (mkFilepath datadir image_id) cs.flatten := by
  refine ⟨?_, ?_, ?_⟩
  · intro eno hene
    rw [add_eq_of_failure cs (.io eno) hfind hfresh]
    refine ⟨?_, rfl⟩
    intro hunl
    simp only [if_pos hene]
    exact delete_partial_removes _ _ hunl
  · intro tag
    rw [add_eq_of_failure cs (.other tag) hfind hfresh]
    exact ⟨fun hunl => delete_partial_removes _ _ hunl, rfl⟩
  · rw [add_eq_of_failure cs (.io EACCES) hfind hfresh]
    simp

theorem C2_partial_cleanup_witness :
    fsExists (add ⟨false, "d", [], []⟩ (fun _ : String => 0) ⟨fun _ => true⟩ [] "i"
        ⟨[[1, 2]], some (.io ENOSPC)⟩ 3).2 "d/i" = false ∧
    (add ⟨false, "d", [], []⟩ (fun _ : String => 0) ⟨fun _ => true⟩ [] "i"
        ⟨[[1, 2]], some (.io ENOSPC)⟩ 3).1 = .error .StorageFull := by
  obtain ⟨ha, -, -⟩ :=
    @C2_partial_cleanup ⟨false, "d", [], []⟩ (fun _ => 0)
      ⟨fun _ => true⟩ [] "i" "d" 3 [[1, 2]] rfl (by decide)
  obtain ⟨h1, h2⟩ := ha ENOSPC (by decide)
  exact ⟨h1 rfl, by rw [h2]; rfl⟩

/-- Claim C7: after a successful `add(id, data, len(data))` — the stream's
chunks concatenating to `data` — `get` on the written path returns chunks
that concatenate to exactly `data` together with size `len(data)`, and
`get_size` returns `len(data)`; the location returned is
`file://<datadir>/<id>` whose path is the written file path. -/
theorem C7_roundtrip {st : StoreState} {free : String → Nat} {uenv : UnlinkEnv}
    {fs : FS} {image_id datadir : String} (data : Bytes) (cs : List Bytes)
    (hcs : cs.flatten = data)
    (hfind : (find_best_datadir st free data.length).1 = .ok datadir)
    (hfresh : fsExists fs (mkFilepath datadir image_id) = false) :
    add st free uenv fs image_id ⟨cs, none⟩ data.length =
      (.ok ⟨"file://" ++ mkFilepath datadir image_id, data.length, data⟩,
       fsInsert fs (mkFilepath datadir image_id) data) ∧
    get (fsInsert fs (mkFilepath datadir image_id) data) (mkFilepath datadir image_id) =
      .ok (ChunkedFile_chunks data, data.length) ∧
    (ChunkedFile_chunks data).flatten = data ∧
    get_size (fsInsert fs (mkFilepath datadir image_id) data) (mkFilepath datadir image_id) =
      .ok data.length := by
  subst hcs
  refine ⟨add_eq_of_success cs hfind hfresh, ?_, ?_, ?_⟩
  · simp [get, resolve_location, fsLookup_fsInsert, Except.bind]
  · exact chunkList_join CHUNKSIZE (by decide) cs.flatten
  · simp [get_size, resolve_location, fsLookup_fsInsert, Except.bind]

theorem C7_roundtrip_witness :
    add ⟨false, "d", [], []⟩ (fun _ : String => 0) ⟨fun _ => true⟩ [] "i"
        ⟨[[1, 2], [3]], none⟩ 3 =
      (.ok ⟨"file://d/i", 3, [1, 2, 3]⟩, [("d/i", [1, 2, 3])]) ∧
    get [("d/i", [1, 2, 3])] "d/i" = .ok (ChunkedFile_chunks [1, 2, 3], 3) ∧
    (ChunkedFile_chunks [1, 2, 3]).flatten = [1, 2, 3] ∧
    get_size [("d/i", [1, 2, 3])] "d/i" = .ok 3 :=
  @C7_roundtrip ⟨false, "d", [], []⟩ (fun _ => 0) ⟨fun _ => true⟩ [] "i" "d"
    [1, 2, 3] [[1, 2], [3]] rfl rfl (by decide)

/-- Claim C8: for every chunk size `n > 0`, streaming `data` through `add` in
`n`-byte chunks feeds the checksum exactly the bytes written — the full
`data`, in order — so the returned checksum is the standard digest of the
exact concatenation of all bytes written and is independent of the chunk
size used internally. -/
theorem C8_checksum {st : StoreState} {free : String → Nat} {uenv : UnlinkEnv}
    {fs : FS} {image_id datadir : String} {size : Nat} (data : Bytes) (n : Nat)
    (hn : n ≠ 0)
    (hfind : (find_best_datadir st free size).1 = .ok datadir)
    (hfresh : fsExists fs (mkFilepath datadir image_id) = false) :
    add st free uenv fs image_id ⟨chunkList n data, none⟩ size =
      (.ok ⟨"file://" ++ mkFilepath datadir image_id, data.length, data⟩,
       fsInsert fs (mkFilepath datadir image_id) data) := by
  have hj := chunkList_join n hn data
  rw [add_eq_of_success (chunkList n data) hfind hfresh, hj]

theorem C8_checksum_witness :
    add ⟨false, "d", [], []⟩ (fun _ : String => 0) ⟨fun _ => true⟩ [] "i"
        ⟨chunkList 2 [1, 2, 3, 4, 5], none⟩ 5 =
      (.ok ⟨"file://d/i", 5, [1, 2, 3, 4, 5]⟩, [("d/i", [1, 2, 3, 4, 5])]) ∧
    add ⟨false, "d", [], []⟩ (fun _ : String => 0) ⟨fun _ => true⟩ [] "i"
        ⟨chunkList 3 [1, 2, 3, 4, 5], none⟩ 5 =
      (.ok ⟨"file://d/i", 5, [1, 2, 3, 4, 5]⟩, [("d/i", [1, 2, 3, 4, 5])]) :=
  ⟨@C8_checksum ⟨false, "d", [], []⟩ (fun _ => 0) ⟨fun _ => true⟩ [] "i" "d" 5
      [1, 2, 3, 4, 5] 2 (by decide) rfl (by decide),
   @C8_checksum ⟨false, "d", [], []⟩ (fun _ => 0) ⟨fun _ => true⟩ [] "i" "d" 5
      [1, 2, 3, 4, 5] 3 (by decide) rfl (by decide)⟩

/-- Claim C9: `delete` raises `NotFound` when no file exists at the resolved
path and `Forbidden` when the unlink fails, leaving the filesystem
unchanged in both cases; on success it removes the file, after which `get`,
`get_size` and `delete` on the same location all raise `NotFound`. -/
theorem C9_delete_semantics (uenv1 uenv2 uenv3 : UnlinkEnv) (fs1 fs2 fs3 : FS)
    (p1 p2 p3 : String)
    (h1 : fsExists fs1 p1 = false)
    (h2 : fsExists fs2 p2 = true) (h2u : uenv2.unlinkOk p2 = false)
    (h3 : fsExists fs3 p3 = true) (h3u : uenv3.unlinkOk p3 = true) :
    delete uenv1 fs1 p1 = (.error .NotFound, fs1) ∧
    delete uenv2 fs2 p2 = (.error .Forbidden, fs2) ∧
    delete uenv3 fs3 p3 = (.ok (), fsRemove fs3 p3) ∧
    get (fsRemove fs3 p3) p3 = .error .NotFound ∧
    get_size (fsRemove fs3 p3) p3 = .error .NotFound ∧
    delete uenv3 (fsRemove fs3 p3) p3 = (.error .NotFound, fsRemove fs3 p3) := by
  refine ⟨?_, ?_, ?_, ?_, ?_, ?_⟩
  · simp [delete, h1]
  · simp [delete, h2, h2u]
  · simp [delete, h3, h3u]
  · simp [get, resolve_location, fsLookup_fsRemove, Except.bind]
  · simp [get_size, resolve_location, fsLookup_fsRemove, Except.bind]
  · simp [delete, fsExists_fsRemove]

theorem C9_delete_semantics_witness :
    delete ⟨fun _ => true⟩ [] "q" = (.error .NotFound, []) ∧
    delete ⟨fun _ => false⟩ [("p", [1])] "p" = (.error .Forbidden, [("p", [1])]) ∧
    delete ⟨fun _ => true⟩ [("p", [1])] "p" = (.ok (), fsRemove [("p", [1])] "p") ∧
    get (fsRemove [("p", [1])] "p") "p" = .error .NotFound ∧
    get_size (fsRemove [("p", [1])] "p") "p" = .error .NotFound ∧
    delete ⟨fun _ => true⟩ (fsRemove [("p", [1])] "p") "p" =
      (.error .NotFound, fsRemove [("p", [1])] "p") :=
  C9_delete_semantics ⟨fun _ => true⟩ ⟨fun _ => false⟩ ⟨fun _ => true⟩
    [] [("p", [1])] [("p", [1])] "q" "p" "p"
    (by decide) (by decide) rfl (by decide) rfl

end Glance
